import Mathlib

/-!
Verification development for the CleanCue VST host process.

The repository ships one visible source file, src/packages/vst-host/src/Main.cpp,
which is the JUCE bootstrap: it constructs a VSTHostService and starts its IPC
loop. The core components (IPC transport, Protocol Engine, Session Registry,
Plugin Instance lifecycle, Audio Processing Engine, Plugin Descriptor Catalog)
live in VSTHostService.h and its implementation, which are not part of the
visible sources; they are modelled here from the written design specification.
Every definition whose doc comment begins with "Modelled from the spec" embeds
a component that is absent from the visible sources, faithful to the words of
the specification.
-/

namespace VSTHost

/-- Modelled from the spec: the error taxonomy of section 7 of the design
(ParseError, UnknownCommand, UnknownHandle, InvalidParameter, FormatMismatch,
PluginLoadFailed, PluginFault, Unsupported). -/
inductive ErrorCode where
  | parseError
  | unknownCommand
  | unknownHandle
  | invalidParameter
  | formatMismatch
  | pluginLoadFailed
  | pluginFault
  | unsupported
deriving DecidableEq, Repr

/-- Modelled from the spec: the plugin format tag of a PluginDescriptor
(VST2, VST3 or AU). -/
inductive PluginFormat where
  | vst2
  | vst3
  | au
deriving DecidableEq, Repr

/-- Modelled from the spec: PluginDescriptor — identity (format tag, unique id,
file path, vendor, display name) and capability flags (instrument vs effect,
channel counts, offline-render support). Immutable once discovered. -/
structure PluginDescriptor where
  format : PluginFormat
  uid : Nat
  path : String
  vendor : String
  displayName : String
  isInstrument : Bool
  numInputs : Nat
  numOutputs : Nat
  supportsOffline : Bool
deriving DecidableEq, Repr

/-- Modelled from the spec: the lifecycle states of a Plugin Instance
(section 4.2): Unloaded, Loading, Loaded, Active, Suspended, Unloading and
Error. The transient Loading and Unloading states are traversed atomically
inside the load and unload operations. -/
inductive LifecycleState where
  | unloaded
  | loading
  | loaded
  | active
  | suspended
  | unloading
  | error
deriving DecidableEq, Repr

/-- Modelled from the spec: one entry of the parameter table of a Plugin
Instance: name, current value, declared value range and the automatable flag.
The accepts predicate models the possibility that the plugin itself rejects a
value, in which case setParameter fails with an InvalidParameter error. -/
structure Param where
  name : String
  value : Rat
  lo : Rat
  hi : Rat
  automatable : Bool
  accepts : Rat → Bool

/-- Modelled from the spec: the function-free view of a parameter-table entry
returned by the getParameters command. -/
structure ParamInfo where
  name : String
  value : Rat
  lo : Rat
  hi : Rat
  automatable : Bool
deriving DecidableEq, Repr

/-- Modelled from the spec: the audio configuration a plugin is loaded with
(sample rate and block size). -/
structure AudioConfig where
  sampleRate : Nat
  blockSize : Nat
deriving DecidableEq, Repr

/-- Modelled from the spec: the behaviour of one plugin binary once
instantiated, as seen through the polymorphic capability set of section 9:
its default parameter table, channel counts, an acceptance predicate for the
offered audio configuration, its deterministic DSP function used by offline
rendering, and opaque preset save and restore functions. -/
structure PluginDef where
  params : List (Nat × Param)
  numIn : Nat
  numOut : Nat
  acceptsConfig : AudioConfig → Bool
  dsp : List (Nat × Param) → List (List Int) → Nat → List (List Int)
  saveState : List (Nat × Param) → List Nat
  loadState : List Nat → List (Nat × Param)

/-- Modelled from the spec: PluginInstance — a handle-identified stateful
wrapper around one loaded plugin: owning descriptor reference, lifecycle
state, parameter table, audio port configuration and the plugin-native
behaviour captured at load time. -/
structure PluginInstance where
  descId : Nat
  state : LifecycleState
  params : List (Nat × Param)
  numIn : Nat
  numOut : Nat
  cfg : AudioConfig
  dsp : List (Nat × Param) → List (List Int) → Nat → List (List Int)
  saveState : List (Nat × Param) → List Nat
  loadState : List Nat → List (Nat × Param)

/-- Modelled from the spec: a candidate binary found while walking a scan
directory; probe is some descriptor when the binary probes successfully and
none when it fails to probe. -/
structure Binary where
  path : String
  probe : Option PluginDescriptor
deriving DecidableEq, Repr

/-- Modelled from the spec: the fixed external environment of the host
process: the file system (directory path to candidate binaries) and the
plugin binaries on disk (unique id to instantiable plugin behaviour). -/
structure HostEnv where
  fs : String → List Binary
  plugins : Nat → Option PluginDef

/-- Modelled from the spec: the mutable state of the host process: the
Session Registry (next fresh handle and the handle-to-instance mapping), the
in-memory descriptor catalog, and the list of every handle ever returned to
the controller (newest first), used to state that handles are never reused. -/
structure HostState where
  nextHandle : Nat
  instances : List (Nat × PluginInstance)
  catalog : List PluginDescriptor
  issued : List Nat

/-- Association-list lookup over natural-number keys, returning the first
entry with the given key. -/
def lookupH {α : Type} : List (Nat × α) → Nat → Option α
  | [], _ => none
  | p :: rest, k => if p.1 = k then some p.2 else lookupH rest k

/-- Replace every entry carrying the given key by the given value; entries
with other keys are untouched and no key is ever added. -/
def updateEntry {α : Type} : List (Nat × α) → Nat → α → List (Nat × α)
  | [], _, _ => []
  | p :: rest, k, v =>
    if p.1 = k then (k, v) :: updateEntry rest k v else p :: updateEntry rest k v

/-- Remove every entry carrying the given key. -/
def removeEntry {α : Type} : List (Nat × α) → Nat → List (Nat × α)
  | [], _ => []
  | p :: rest, k =>
    if p.1 = k then removeEntry rest k else p :: removeEntry rest k

/-- Modelled from the spec: clamping of a requested parameter value to the
declared range of the parameter. -/
def clampVal (lo hi v : Rat) : Rat :=
  if v < lo then lo else if hi < v then hi else v

/-- Modelled from the spec: the scan operation of the Plugin Descriptor
Catalog — walk the given directories, probe each candidate binary, and keep
the descriptors of the binaries that probe successfully; a binary that fails
to probe is omitted, not reported as an error. -/
def scan (env : HostEnv) (paths : List String) : List PluginDescriptor :=
  paths.flatMap (fun p => (env.fs p).filterMap (fun b => b.probe))

/-- Modelled from the spec: the success payloads a Response can carry. -/
inductive Payload where
  | unit
  | handle (h : Nat)
  | value (v : Rat)
  | descriptors (ds : List PluginDescriptor)
  | paramTable (ps : List (Nat × ParamInfo))
  | blob (bytes : List Nat)
  | buffers (out : List (List Int))
deriving DecidableEq, Repr

/-- Modelled from the spec: the outcome of one dispatched operation — either
a success payload or an error with code and message. -/
inductive Outcome where
  | ok (p : Payload)
  | err (code : ErrorCode) (msg : String)
deriving DecidableEq, Repr

/-- Modelled from the spec: the recognized command set of section 6, plus a
constructor for a well-formed request whose command name is not recognized. -/
inductive Command where
  | scanPlugins (paths : List String)
  | loadPlugin (descId : Nat) (cfg : AudioConfig)
  | unloadPlugin (h : Nat)
  | activate (h : Nat)
  | suspend (h : Nat)
  | getParameters (h : Nat)
  | setParameter (h : Nat) (pid : Nat) (v : Rat)
  | getParameter (h : Nat) (pid : Nat)
  | savePreset (h : Nat)
  | loadPreset (h : Nat) (blob : List Nat)
  | renderOffline (h : Nat) (inputBuffers : List (List Int)) (frameCount : Nat)
  | showEditor (h : Nat)
  | hideEditor (h : Nat)
  | unknown (name : String)

/-- The instance handle a command refers to, when it refers to one. -/
def Command.handleRef : Command → Option Nat
  | .scanPlugins _ => none
  | .loadPlugin _ _ => none
  | .unloadPlugin h => some h
  | .activate h => some h
  | .suspend h => some h
  | .getParameters h => some h
  | .setParameter h _ _ => some h
  | .getParameter h _ => some h
  | .savePreset h => some h
  | .loadPreset h _ => some h
  | .renderOffline h _ _ => some h
  | .showEditor h => some h
  | .hideEditor h => some h
  | .unknown _ => none

/-- Modelled from the spec: construction of a fresh PluginInstance from a
descriptor and the instantiated plugin behaviour; the instance enters the
Loaded state (the transient Loading state is internal to the load call). -/
def mkInstance (d : PluginDescriptor) (pd : PluginDef) (cfg : AudioConfig) :
    PluginInstance :=
  { descId := d.uid
    state := .loaded
    params := pd.params
    numIn := pd.numIn
    numOut := pd.numOut
    cfg := cfg
    dsp := pd.dsp
    saveState := pd.saveState
    loadState := pd.loadState }

/-- Look up the instance a handle-referencing command targets; an unknown
handle fails with an UnknownHandle error and leaves the state unchanged. -/
def withInst (s : HostState) (h : Nat)
    (k : PluginInstance → HostState × Outcome) : HostState × Outcome :=
  match lookupH s.instances h with
  | none => (s, .err .unknownHandle "unknown handle")
  | some i => k i

/-- Replace the instance stored at a handle. -/
def putInst (s : HostState) (h : Nat) (i : PluginInstance) : HostState :=
  { s with instances := updateEntry s.instances h i }

/-- True exactly in the states in which parameter and preset access is
valid: Loaded, Active and Suspended. -/
def paramStateOk (st : LifecycleState) : Bool :=
  st == .loaded || st == .active || st == .suspended

/-- The view of a parameter exposed by getParameters. -/
def infoOf (p : Param) : ParamInfo :=
  { name := p.name, value := p.value, lo := p.lo, hi := p.hi,
    automatable := p.automatable }

/-- Modelled from the spec: dispatch of one recognized command to the
Catalog, the Session Registry or the Audio Processing Engine (sections 4.1,
4.2, 4.3 and 6), returning the next host state and the outcome reported in
the Response. Design choices mandated by the spec: scan replaces the
in-memory catalog and never mutates a live instance; load fails with
PluginLoadFailed when the descriptor is unknown or the binary cannot be
instantiated or rejects the audio configuration, and otherwise issues the
next fresh handle; activate is a re-entrant no-op when already Active;
setParameter clamps the requested value to the declared range and fails with
InvalidParameter only when the plugin itself rejects the clamped value;
unload retires the handle from the registry from any state; renderOffline
requires an Active instance, checks the buffer layout against the configured
ports (FormatMismatch otherwise) and applies the deterministic DSP function;
an operation invoked in a state where it is not available fails with an
Unsupported error. -/
def processCommand (env : HostEnv) (s : HostState) :
    Command → HostState × Outcome
  | .scanPlugins paths =>
    let ds := scan env paths
    ({ s with catalog := ds }, .ok (.descriptors ds))
  | .loadPlugin descId cfg =>
    match s.catalog.find? (fun d => d.uid == descId) with
    | none => (s, .err .pluginLoadFailed "unknown descriptor")
    | some d =>
      match env.plugins d.uid with
      | none => (s, .err .pluginLoadFailed "binary cannot be instantiated")
      | some pd =>
        if pd.acceptsConfig cfg then
          let h := s.nextHandle
          ({ s with
              nextHandle := h + 1
              instances := (h, mkInstance d pd cfg) :: s.instances
              issued := h :: s.issued },
           .ok (.handle h))
        else (s, .err .pluginLoadFailed "configuration rejected")
  | .unloadPlugin h =>
    withInst s h (fun _ =>
      ({ s with instances := removeEntry s.instances h }, .ok .unit))
  | .activate h =>
    withInst s h (fun i =>
      match i.state with
      | .active => (s, .ok .unit)
      | .loaded => (putInst s h { i with state := .active }, .ok .unit)
      | .suspended => (putInst s h { i with state := .active }, .ok .unit)
      | _ => (s, .err .unsupported "activate: invalid state"))
  | .suspend h =>
    withInst s h (fun i =>
      match i.state with
      | .active => (putInst s h { i with state := .suspended }, .ok .unit)
      | _ => (s, .err .unsupported "suspend: invalid state"))
  | .getParameters h =>
    withInst s h (fun i =>
      if paramStateOk i.state then
        (s, .ok (.paramTable (i.params.map (fun q => (q.1, infoOf q.2)))))
      else (s, .err .unsupported "getParameters: invalid state"))
  | .setParameter h pid v =>
    withInst s h (fun i =>
      if paramStateOk i.state then
        match lookupH i.params pid with
        | none => (s, .err .invalidParameter "no such parameter")
        | some p =>
          let c := clampVal p.lo p.hi v
          if p.accepts c then
            (putInst s h
              { i with params := updateEntry i.params pid { p with value := c } },
             .ok .unit)
          else (s, .err .invalidParameter "plugin rejected value")
      else (s, .err .unsupported "setParameter: invalid state"))
  | .getParameter h pid =>
    withInst s h (fun i =>
      if paramStateOk i.state then
        match lookupH i.params pid with
        | none => (s, .err .invalidParameter "no such parameter")
        | some p => (s, .ok (.value p.value))
      else (s, .err .unsupported "getParameter: invalid state"))
  | .savePreset h =>
    withInst s h (fun i =>
      if paramStateOk i.state then (s, .ok (.blob (i.saveState i.params)))
      else (s, .err .unsupported "savePreset: invalid state"))
  | .loadPreset h blob =>
    withInst s h (fun i =>
      if paramStateOk i.state then
        (putInst s h { i with params := i.loadState blob }, .ok .unit)
      else (s, .err .unsupported "loadPreset: invalid state"))
  | .renderOffline h inputBuffers frameCount =>
    withInst s h (fun i =>
      match i.state with
      | .active =>
        if inputBuffers.length == i.numIn
            && inputBuffers.all (fun b => b.length == frameCount) then
          (s, .ok (.buffers (i.dsp i.params inputBuffers frameCount)))
        else (s, .err .formatMismatch "buffer layout mismatch")
      | _ => (s, .err .unsupported "renderOffline: instance not Active"))
  | .showEditor h =>
    withInst s h (fun _ => (s, .ok .unit))
  | .hideEditor h =>
    withInst s h (fun _ => (s, .ok .unit))
  | .unknown name =>
    (s, .err .unknownCommand name)

/-- Modelled from the spec: one incoming transport line — either malformed
JSON, or a well-formed request carrying a controller-assigned correlation id
and a command. -/
inductive Line where
  | malformed
  | request (rid : Nat) (cmd : Command)

/-- The request id of a line, when the line parses to a request. -/
def Line.reqId : Line → Option Nat
  | .malformed => none
  | .request rid _ => some rid

/-- Modelled from the spec: a Response — the id of the originating request
(absent when the line was malformed and no id could be parsed) and the
outcome. -/
structure Response where
  id : Option Nat
  outcome : Outcome
deriving DecidableEq, Repr

/-- Modelled from the spec: an unsolicited Event, tagged with the owning
handle and never matched to a request id. -/
structure Event where
  name : String
  handle : Nat
deriving DecidableEq, Repr

/-- Modelled from the spec: one outgoing protocol message — a Response or an
Event. -/
inductive Msg where
  | resp (r : Response)
  | event (e : Event)
deriving DecidableEq, Repr

/-- Modelled from the spec: processing of one transport line by the Protocol
Engine: a malformed line fails whole with a ParseError Response and the state
is untouched; a well-formed request is dispatched and its outcome is tagged
with the originating request id. -/
def processLine (env : HostEnv) (s : HostState) : Line → HostState × Response
  | .malformed => (s, { id := none, outcome := .err .parseError "malformed JSON" })
  | .request rid cmd =>
    let r := processCommand env s cmd
    (r.1, { id := some rid, outcome := r.2 })

/-- Modelled from the spec: a native plugin fault signalled during a call on
the given handle: the offending instance transitions to the Error state and a
crash Event tagged with the handle is emitted; a fault attributed to a handle
that is not live changes nothing. The host process itself never terminates on
a plugin fault. -/
def raiseFault (s : HostState) (h : Nat) : HostState × List Msg :=
  match lookupH s.instances h with
  | none => (s, [])
  | some i =>
    ({ s with instances := updateEntry s.instances h { i with state := .error } },
     [.event { name := "crash", handle := h }])

/-- One externally visible step of the host: a transport line arrives, or a
native plugin fault is raised against a handle. -/
inductive Step where
  | line (l : Line)
  | fault (h : Nat)

/-- Modelled from the spec: the host main loop — consume the steps in order,
emitting exactly one Response per line and the Events of each fault. -/
def runSteps (env : HostEnv) (s : HostState) : List Step → HostState × List Msg
  | [] => (s, [])
  | .line l :: rest =>
    let r := processLine env s l
    let k := runSteps env r.1 rest
    (k.1, .resp r.2 :: k.2)
  | .fault h :: rest =>
    let r := raiseFault s h
    let k := runSteps env r.1 rest
    (k.1, r.2 ++ k.2)

/-- The ids carried by the Responses among a list of outgoing messages, in
emission order. -/
def respIds (ms : List Msg) : List Nat :=
  ms.filterMap (fun m => match m with | .resp r => r.id | .event _ => none)

/-- The number of Responses among a list of outgoing messages. -/
def respCount (ms : List Msg) : Nat :=
  (ms.filter (fun m => match m with | .resp _ => true | .event _ => false)).length

/-- The request ids of the well-formed request lines among a list of steps,
in arrival order. -/
def reqIds (steps : List Step) : List Nat :=
  steps.filterMap (fun st => match st with | .line l => l.reqId | .fault _ => none)

/-- The number of transport lines among a list of steps. -/
def lineCount (steps : List Step) : Nat :=
  (steps.filter (fun st => match st with | .line _ => true | .fault _ => false)).length

/-- Well-formedness of the Session Registry: every live handle is below the
next fresh handle, live handles are pairwise distinct, every live handle was
issued, issued handles are pairwise distinct, and every issued handle is
below the next fresh handle. -/
def WfRegistry (s : HostState) : Prop :=
  (∀ k ∈ s.instances.map Prod.fst, k < s.nextHandle) ∧
  (s.instances.map Prod.fst).Nodup ∧
  (∀ k ∈ s.instances.map Prod.fst, k ∈ s.issued) ∧
  s.issued.Nodup ∧
  (∀ k ∈ s.issued, k < s.nextHandle)

/-- A handle is retired: it is below the next fresh handle (so it can never
be issued again) and no live instance is registered under it. -/
def Retired (s : HostState) (h : Nat) : Prop :=
  lookupH s.instances h = none ∧ h < s.nextHandle

/-- The bootstrap actions the visible entry point can perform. -/
inductive HostAction where
  | createService
  | startService
deriving DecidableEq, Repr

/-- Embedding of VSTHostApplication::initialise from
src/packages/vst-host/src/Main.cpp, lines 20 to 29: the commandLine argument
is discarded via juce::ignoreUnused, one VSTHostService is constructed, and
start() is invoked on it once. The behaviour is rendered as the sequence of
bootstrap actions performed. -/
def initialise (commandLine : String) : List HostAction :=
  [HostAction.createService, HostAction.startService]

/-! Association-list lemmas used by the registry proofs. -/

theorem lookupH_updateEntry_self {α : Type} (l : List (Nat × α)) (k : Nat) (v : α) :
    lookupH (updateEntry l k v) k = (lookupH l k).map (fun _ => v) := by
  induction l with
  | nil => rfl
  | cons p rest ih =>
    by_cases hp : p.1 = k <;> simp [updateEntry, lookupH, hp, ih]

theorem lookupH_updateEntry_ne {α : Type} (l : List (Nat × α)) (k k₂ : Nat) (v : α)
    (hne : k ≠ k₂) : lookupH (updateEntry l k₂ v) k = lookupH l k := by
  induction l with
  | nil => rfl
  | cons p rest ih =>
    by_cases hp : p.1 = k₂
    · simp [updateEntry, lookupH, hp, Ne.symm hne, ih]
    · by_cases hk : p.1 = k <;>
        simp [updateEntry, lookupH, hp, hk, hne, Ne.symm hne, ih]

theorem lookupH_removeEntry_self {α : Type} (l : List (Nat × α)) (k : Nat) :
    lookupH (removeEntry l k) k = none := by
  induction l with
  | nil => rfl
  | cons p rest ih =>
    by_cases hp : p.1 = k <;> simp [removeEntry, lookupH, hp, ih]

theorem lookupH_removeEntry_ne {α : Type} (l : List (Nat × α)) (k k₂ : Nat)
    (hne : k ≠ k₂) : lookupH (removeEntry l k₂) k = lookupH l k := by
  induction l with
  | nil => rfl
  | cons p rest ih =>
    by_cases hp : p.1 = k₂
    · simp [removeEntry, lookupH, hp, Ne.symm hne, ih]
    · by_cases hk : p.1 = k <;>
        simp [removeEntry, lookupH, hp, hk, hne, Ne.symm hne, ih]

theorem lookupH_removeEntry_none {α : Type} (l : List (Nat × α)) (k k₂ : Nat)
    (hnone : lookupH l k = none) : lookupH (removeEntry l k₂) k = none := by
  by_cases hk : k = k₂
  · simpa [hk] using lookupH_removeEntry_self l k₂
  · rw [lookupH_removeEntry_ne l k k₂ hk]; exact hnone

theorem keys_updateEntry {α : Type} (l : List (Nat × α)) (k : Nat) (v : α) :
    (updateEntry l k v).map Prod.fst = l.map Prod.fst := by
  induction l with
  | nil => rfl
  | cons p rest ih =>
    by_cases hp : p.1 = k <;> simp [updateEntry, hp, ih]

theorem removeEntry_sublist {α : Type} (l : List (Nat × α)) (k : Nat) :
    List.Sublist (removeEntry l k) l := by
  induction l with
  | nil => simp [removeEntry]
  | cons p rest ih =>
    by_cases hp : p.1 = k
    · simp only [removeEntry, hp, if_true]
      exact ih.cons p
    · simp only [removeEntry, hp, if_false]
      exact ih.cons₂ p

theorem lookupH_mem {α : Type} (l : List (Nat × α)) (k : Nat) (v : α)
    (hl : lookupH l k = some v) : (k, v) ∈ l := by
  induction l with
  | nil => simp [lookupH] at hl
  | cons p rest ih =>
    by_cases hp : p.1 = k
    · simp only [lookupH, hp, if_true, Option.some.injEq] at hl
      have hpk : p = (k, v) := Prod.ext hp hl
      rw [← hpk]
      exact List.mem_cons_self p rest
    · simp only [lookupH, hp, if_false] at hl
      exact List.mem_cons_of_mem p (ih hl)

theorem lookupH_eq_none_of_not_mem_keys {α : Type} (l : List (Nat × α)) (k : Nat)
    (hk : k ∉ l.map Prod.fst) : lookupH l k = none := by
  induction l with
  | nil => rfl
  | cons p rest ih =>
    simp only [List.map_cons, List.mem_cons, not_or] at hk
    simp [lookupH, Ne.symm hk.1, ih hk.2]

theorem withInst_none (s : HostState) (h : Nat)
    (k : PluginInstance → HostState × Outcome)
    (hl : lookupH s.instances h = none) :
    withInst s h k = (s, .err .unknownHandle "unknown handle") := by
  simp [withInst, hl]

theorem withInst_some (s : HostState) (h : Nat)
    (k : PluginInstance → HostState × Outcome) (i : PluginInstance)
    (hl : lookupH s.instances h = some i) :
    withInst s h k = k i := by
  simp [withInst, hl]

theorem lookupH_updateEntry_none {α : Type} (l : List (Nat × α)) (k k₂ : Nat)
    (v : α) (hnone : lookupH l k = none) :
    lookupH (updateEntry l k₂ v) k = none := by
  by_cases hk : k = k₂
  · subst hk
    rw [lookupH_updateEntry_self, hnone]
    rfl
  · rw [lookupH_updateEntry_ne l k k₂ v hk]
    exact hnone

/-- Every command leaves the registry fields untouched, or rewrites the
instance stored at one handle, or removes one handle, or inserts the next
fresh handle while bumping it and recording it as issued. -/
theorem processCommand_shape (env : HostEnv) (s : HostState) (cmd : Command) :
    ((processCommand env s cmd).1.instances = s.instances ∧
      (processCommand env s cmd).1.nextHandle = s.nextHandle ∧
      (processCommand env s cmd).1.issued = s.issued) ∨
    (∃ h i, (processCommand env s cmd).1.instances = updateEntry s.instances h i ∧
      (processCommand env s cmd).1.nextHandle = s.nextHandle ∧
      (processCommand env s cmd).1.issued = s.issued) ∨
    (∃ h, (processCommand env s cmd).1.instances = removeEntry s.instances h ∧
      (processCommand env s cmd).1.nextHandle = s.nextHandle ∧
      (processCommand env s cmd).1.issued = s.issued) ∨
    (∃ i, (processCommand env s cmd).1.instances = (s.nextHandle, i) :: s.instances ∧
      (processCommand env s cmd).1.nextHandle = s.nextHandle + 1 ∧
      (processCommand env s cmd).1.issued = s.nextHandle :: s.issued) := by
  cases cmd with
  | scanPlugins paths => exact Or.inl ⟨rfl, rfl, rfl⟩
  | loadPlugin descId cfg =>
    simp only [processCommand]
    split
    · exact Or.inl ⟨rfl, rfl, rfl⟩
    · split
      · exact Or.inl ⟨rfl, rfl, rfl⟩
      · split
        · exact Or.inr (Or.inr (Or.inr ⟨_, rfl, rfl, rfl⟩))
        · exact Or.inl ⟨rfl, rfl, rfl⟩
  | unloadPlugin h =>
    cases hl : lookupH s.instances h with
    | none => exact Or.inl (by simp [processCommand, withInst_none _ _ _ hl])
    | some i =>
      refine Or.inr (Or.inr (Or.inl ⟨h, ?_, ?_, ?_⟩)) <;>
        simp [processCommand, withInst_some _ _ _ _ hl]
  | activate h =>
    cases hl : lookupH s.instances h with
    | none => exact Or.inl (by simp [processCommand, withInst_none _ _ _ hl])
    | some i =>
      simp only [processCommand, withInst_some _ _ _ _ hl]
      generalize i.state = st
      cases st <;>
        first
        | exact Or.inl ⟨rfl, rfl, rfl⟩
        | exact Or.inr (Or.inl ⟨h, _, rfl, rfl, rfl⟩)
  | suspend h =>
    cases hl : lookupH s.instances h with
    | none => exact Or.inl (by simp [processCommand, withInst_none _ _ _ hl])
    | some i =>
      simp only [processCommand, withInst_some _ _ _ _ hl]
      generalize i.state = st
      cases st <;>
        first
        | exact Or.inl ⟨rfl, rfl, rfl⟩
        | exact Or.inr (Or.inl ⟨h, _, rfl, rfl, rfl⟩)
  | getParameters h =>
    cases hl : lookupH s.instances h with
    | none => exact Or.inl (by simp [processCommand, withInst_none _ _ _ hl])
    | some i =>
      simp only [processCommand, withInst_some _ _ _ _ hl]
      split <;> exact Or.inl ⟨rfl, rfl, rfl⟩
  | setParameter h pid v =>
    cases hl : lookupH s.instances h with
    | none => exact Or.inl (by simp [processCommand, withInst_none _ _ _ hl])
    | some i =>
      simp only [processCommand, withInst_some _ _ _ _ hl]
      split
      · split
        · exact Or.inl ⟨rfl, rfl, rfl⟩
        · split
          · exact Or.inr (Or.inl ⟨h, _, rfl, rfl, rfl⟩)
          · exact Or.inl ⟨rfl, rfl, rfl⟩
      · exact Or.inl ⟨rfl, rfl, rfl⟩
  | getParameter h pid =>
    cases hl : lookupH s.instances h with
    | none => exact Or.inl (by simp [processCommand, withInst_none _ _ _ hl])
    | some i =>
      simp only [processCommand, withInst_some _ _ _ _ hl]
      split
      · split
        · exact Or.inl ⟨rfl, rfl, rfl⟩
        · exact Or.inl ⟨rfl, rfl, rfl⟩
      · exact Or.inl ⟨rfl, rfl, rfl⟩
  | savePreset h =>
    cases hl : lookupH s.instances h with
    | none => exact Or.inl (by simp [processCommand, withInst_none _ _ _ hl])
    | some i =>
      simp only [processCommand, withInst_some _ _ _ _ hl]
      split <;> exact Or.inl ⟨rfl, rfl, rfl⟩
  | loadPreset h blob =>
    cases hl : lookupH s.instances h with
    | none => exact Or.inl (by simp [processCommand, withInst_none _ _ _ hl])
    | some i =>
      simp only [processCommand, withInst_some _ _ _ _ hl]
      split
      · exact Or.inr (Or.inl ⟨h, _, rfl, rfl, rfl⟩)
      · exact Or.inl ⟨rfl, rfl, rfl⟩
  | renderOffline h inp fc =>
    cases hl : lookupH s.instances h with
    | none => exact Or.inl (by simp [processCommand, withInst_none _ _ _ hl])
    | some i =>
      simp only [processCommand, withInst_some _ _ _ _ hl]
      split
      · split <;> exact Or.inl ⟨rfl, rfl, rfl⟩
      · exact Or.inl ⟨rfl, rfl, rfl⟩
  | showEditor h =>
    cases hl : lookupH s.instances h with
    | none => exact Or.inl (by simp [processCommand, withInst_none _ _ _ hl])
    | some i =>
      exact Or.inl (by simp [processCommand, withInst_some _ _ _ _ hl])
  | hideEditor h =>
    cases hl : lookupH s.instances h with
    | none => exact Or.inl (by simp [processCommand, withInst_none _ _ _ hl])
    | some i =>
      exact Or.inl (by simp [processCommand, withInst_some _ _ _ _ hl])
  | unknown name => exact Or.inl ⟨rfl, rfl, rfl⟩

/-- A raised fault leaves the registry keys, the next fresh handle and the
issued list untouched: it at most rewrites the instance stored at the
faulting handle. -/
theorem raiseFault_shape (s : HostState) (h : Nat) :
    ((raiseFault s h).1.instances = s.instances ∨
      ∃ i, (raiseFault s h).1.instances = updateEntry s.instances h i) ∧
    (raiseFault s h).1.nextHandle = s.nextHandle ∧
    (raiseFault s h).1.issued = s.issued := by
  unfold raiseFault
  cases hl : lookupH s.instances h with
  | none => exact ⟨Or.inl rfl, rfl, rfl⟩
  | some i => exact ⟨Or.inr ⟨_, rfl⟩, rfl, rfl⟩

/-- A retired handle stays retired across any single command. -/
theorem retired_processCommand (env : HostEnv) (s : HostState) (h : Nat)
    (cmd : Command) (hr : Retired s h) :
    Retired (processCommand env s cmd).1 h := by
  obtain ⟨hln, hlt⟩ := hr
  rcases processCommand_shape env s cmd with
    ⟨h1, h2, _⟩ | ⟨k, i, h1, h2, _⟩ | ⟨k, h1, h2, _⟩ | ⟨i, h1, h2, _⟩
  · exact ⟨by rw [h1]; exact hln, by rw [h2]; exact hlt⟩
  · exact ⟨by rw [h1]; exact lookupH_updateEntry_none _ _ _ _ hln,
      by rw [h2]; exact hlt⟩
  · exact ⟨by rw [h1]; exact lookupH_removeEntry_none _ _ _ hln,
      by rw [h2]; exact hlt⟩
  · refine ⟨?_, by rw [h2]; omega⟩
    rw [h1]
    simp [lookupH, Nat.ne_of_gt hlt, hln]

/-- A retired handle stays retired across a raised fault. -/
theorem retired_raiseFault (s : HostState) (h k : Nat) (hr : Retired s h) :
    Retired (raiseFault s k).1 h := by
  obtain ⟨hln, hlt⟩ := hr
  obtain ⟨h1 | ⟨i, h1⟩, h2, _⟩ := raiseFault_shape s k
  · exact ⟨by rw [h1]; exact hln, by rw [h2]; exact hlt⟩
  · exact ⟨by rw [h1]; exact lookupH_updateEntry_none _ _ _ _ hln,
      by rw [h2]; exact hlt⟩

/-- A retired handle stays retired across any run of the host. -/
theorem retired_runSteps (env : HostEnv) (s : HostState) (h : Nat)
    (steps : List Step) (hr : Retired s h) :
    Retired (runSteps env s steps).1 h := by
  induction steps generalizing s with
  | nil => exact hr
  | cons st rest ih =>
    cases st with
    | line l =>
      cases l with
      | malformed => exact ih s hr
      | request rid cmd => exact ih _ (retired_processCommand env s h cmd hr)
    | fault k => exact ih _ (retired_raiseFault s h k hr)

/-- Any command that refers to a handle with no live instance fails with an
UnknownHandle error. -/
theorem handleRef_unknown (env : HostEnv) (s : HostState) (cmd : Command)
    (h : Nat) (hc : cmd.handleRef = some h)
    (hl : lookupH s.instances h = none) :
    (processCommand env s cmd).2 = .err .unknownHandle "unknown handle" := by
  cases cmd <;> simp only [Command.handleRef, Option.some.injEq,
      reduceCtorEq] at hc <;> subst hc <;>
    simp [processCommand, withInst_none _ _ _ hl]

/-- Commands that reference a handle read and write only the entry stored at
that handle: if two states agree on the entry at handle b, then any command
referencing b computes the same outcome from both states, and afterwards the
two states still agree on the entry at b. -/
theorem processCommand_frame (env : HostEnv) (s t : HostState) (b : Nat)
    (cmd : Command) (hc : cmd.handleRef = some b)
    (hb : lookupH s.instances b = lookupH t.instances b) :
    (processCommand env s cmd).2 = (processCommand env t cmd).2 ∧
    lookupH (processCommand env s cmd).1.instances b
      = lookupH (processCommand env t cmd).1.instances b := by
  cases cmd with
  | scanPlugins paths => simp [Command.handleRef] at hc
  | loadPlugin descId cfg => simp [Command.handleRef] at hc
  | unknown name => simp [Command.handleRef] at hc
  | unloadPlugin h =>
    simp only [Command.handleRef, Option.some.injEq] at hc
    subst hc
    cases hl : lookupH t.instances h with
    | none =>
      have hls : lookupH s.instances h = none := hb.trans hl
      simp [processCommand, withInst_none _ _ _ hls, withInst_none _ _ _ hl,
        hls, hl]
    | some i =>
      have hls : lookupH s.instances h = some i := hb.trans hl
      simp only [processCommand, withInst_some _ _ _ _ hls,
        withInst_some _ _ _ _ hl]
      simp [lookupH_removeEntry_self]
  | activate h =>
    simp only [Command.handleRef, Option.some.injEq] at hc
    subst hc
    cases hl : lookupH t.instances h with
    | none =>
      have hls : lookupH s.instances h = none := hb.trans hl
      simp [processCommand, withInst_none _ _ _ hls, withInst_none _ _ _ hl,
        hls, hl]
    | some i =>
      have hls : lookupH s.instances h = some i := hb.trans hl
      simp only [processCommand, withInst_some _ _ _ _ hls,
        withInst_some _ _ _ _ hl]
      generalize i.state = st
      cases st <;> simp [putInst, lookupH_updateEntry_self, hls, hl, hb]
  | suspend h =>
    simp only [Command.handleRef, Option.some.injEq] at hc
    subst hc
    cases hl : lookupH t.instances h with
    | none =>
      have hls : lookupH s.instances h = none := hb.trans hl
      simp [processCommand, withInst_none _ _ _ hls, withInst_none _ _ _ hl,
        hls, hl]
    | some i =>
      have hls : lookupH s.instances h = some i := hb.trans hl
      simp only [processCommand, withInst_some _ _ _ _ hls,
        withInst_some _ _ _ _ hl]
      generalize i.state = st
      cases st <;> simp [putInst, lookupH_updateEntry_self, hls, hl, hb]
  | getParameters h =>
    simp only [Command.handleRef, Option.some.injEq] at hc
    subst hc
    cases hl : lookupH t.instances h with
    | none =>
      have hls : lookupH s.instances h = none := hb.trans hl
      simp [processCommand, withInst_none _ _ _ hls, withInst_none _ _ _ hl,
        hls, hl]
    | some i =>
      have hls : lookupH s.instances h = some i := hb.trans hl
      simp only [processCommand, withInst_some _ _ _ _ hls,
        withInst_some _ _ _ _ hl]
      cases hps : paramStateOk i.state <;> simp [hb]
  | setParameter h pid v =>
    simp only [Command.handleRef, Option.some.injEq] at hc
    subst hc
    cases hl : lookupH t.instances h with
    | none =>
      have hls : lookupH s.instances h = none := hb.trans hl
      simp [processCommand, withInst_none _ _ _ hls, withInst_none _ _ _ hl,
        hls, hl]
    | some i =>
      have hls : lookupH s.instances h = some i := hb.trans hl
      simp only [processCommand, withInst_some _ _ _ _ hls,
        withInst_some _ _ _ _ hl]
      cases hps : paramStateOk i.state
      · simp [hb]
      · cases hpp : lookupH i.params pid with
        | none => simp [hb]
        | some p =>
          cases hacc : p.accepts (clampVal p.lo p.hi v) <;>
            simp [hacc, putInst, lookupH_updateEntry_self, hls, hl, hb]
  | getParameter h pid =>
    simp only [Command.handleRef, Option.some.injEq] at hc
    subst hc
    cases hl : lookupH t.instances h with
    | none =>
      have hls : lookupH s.instances h = none := hb.trans hl
      simp [processCommand, withInst_none _ _ _ hls, withInst_none _ _ _ hl,
        hls, hl]
    | some i =>
      have hls : lookupH s.instances h = some i := hb.trans hl
      simp only [processCommand, withInst_some _ _ _ _ hls,
        withInst_some _ _ _ _ hl]
      cases hps : paramStateOk i.state
      · simp [hb]
      · cases hpp : lookupH i.params pid with
        | none => simp [hb]
        | some p => simp [hb]
  | savePreset h =>
    simp only [Command.handleRef, Option.some.injEq] at hc
    subst hc
    cases hl : lookupH t.instances h with
    | none =>
      have hls : lookupH s.instances h = none := hb.trans hl
      simp [processCommand, withInst_none _ _ _ hls, withInst_none _ _ _ hl,
        hls, hl]
    | some i =>
      have hls : lookupH s.instances h = some i := hb.trans hl
      simp only [processCommand, withInst_some _ _ _ _ hls,
        withInst_some _ _ _ _ hl]
      cases hps : paramStateOk i.state <;> simp [hb]
  | loadPreset h blob =>
    simp only [Command.handleRef, Option.some.injEq] at hc
    subst hc
    cases hl : lookupH t.instances h with
    | none =>
      have hls : lookupH s.instances h = none := hb.trans hl
      simp [processCommand, withInst_none _ _ _ hls, withInst_none _ _ _ hl,
        hls, hl]
    | some i =>
      have hls : lookupH s.instances h = some i := hb.trans hl
      simp only [processCommand, withInst_some _ _ _ _ hls,
        withInst_some _ _ _ _ hl]
      cases hps : paramStateOk i.state <;>
        simp [putInst, lookupH_updateEntry_self, hls, hl, hb]
  | renderOffline h inp fc =>
    simp only [Command.handleRef, Option.some.injEq] at hc
    subst hc
    cases hl : lookupH t.instances h with
    | none =>
      have hls : lookupH s.instances h = none := hb.trans hl
      simp [processCommand, withInst_none _ _ _ hls, withInst_none _ _ _ hl,
        hls, hl]
    | some i =>
      have hls : lookupH s.instances h = some i := hb.trans hl
      simp only [processCommand, withInst_some _ _ _ _ hls,
        withInst_some _ _ _ _ hl]
      generalize i.state = st
      cases st <;> (split_ifs <;> simp [hb])
  | showEditor h =>
    simp only [Command.handleRef, Option.some.injEq] at hc
    subst hc
    cases hl : lookupH t.instances h with
    | none =>
      have hls : lookupH s.instances h = none := hb.trans hl
      simp [processCommand, withInst_none _ _ _ hls, withInst_none _ _ _ hl,
        hls, hl]
    | some i =>
      have hls : lookupH s.instances h = some i := hb.trans hl
      simp only [processCommand, withInst_some _ _ _ _ hls,
        withInst_some _ _ _ _ hl]
      simp [hb]
  | hideEditor h =>
    simp only [Command.handleRef, Option.some.injEq] at hc
    subst hc
    cases hl : lookupH t.instances h with
    | none =>
      have hls : lookupH s.instances h = none := hb.trans hl
      simp [processCommand, withInst_none _ _ _ hls, withInst_none _ _ _ hl,
        hls, hl]
    | some i =>
      have hls : lookupH s.instances h = some i := hb.trans hl
      simp only [processCommand, withInst_some _ _ _ _ hls,
        withInst_some _ _ _ _ hl]
      simp [hb]

/-! Concrete fixtures used to evaluate the theorems on explicit inputs. -/

/-- A concrete parameter with declared range 0 to 1 that the plugin always
accepts. -/
def cParam : Param :=
  { name := "gain", value := 0, lo := 0, hi := 1, automatable := true,
    accepts := fun _ => true }

/-- A concrete plugin descriptor with unique id 7. -/
def cDesc : PluginDescriptor :=
  { format := .vst3, uid := 7, path := "/plugins/testgain.vst3",
    vendor := "acme", displayName := "TestGain", isInstrument := false,
    numInputs := 2, numOutputs := 2, supportsOffline := true }

/-- A concrete deterministic test plugin: one parameter, identity DSP. -/
def cDef : PluginDef :=
  { params := [(0, cParam)], numIn := 2, numOut := 2,
    acceptsConfig := fun _ => true,
    dsp := fun _ inp _ => inp,
    saveState := fun _ => [],
    loadState := fun _ => [(0, cParam)] }

/-- A concrete host environment: empty directories everywhere, and exactly
one instantiable plugin binary, with unique id 7. -/
def cEnv : HostEnv :=
  { fs := fun _ => [], plugins := fun u => if u = 7 then some cDef else none }

/-- A concrete audio configuration. -/
def cCfg : AudioConfig := { sampleRate := 48000, blockSize := 512 }

/-- A concrete freshly loaded instance of the test plugin. -/
def cInst : PluginInstance := mkInstance cDesc cDef cCfg

/-- The concrete instance after activation. -/
def cInstActive : PluginInstance := { cInst with state := .active }

/-- A concrete host state holding two live instances: handle 0 is Active and
handle 1 is Loaded; handles 0 and 1 have been issued and 2 is next. -/
def cState : HostState :=
  { nextHandle := 2, instances := [(0, cInstActive), (1, cInst)],
    catalog := [cDesc], issued := [1, 0] }

/-! Claim theorems. -/

/-- C10: the initialise entry point of the visible bootstrap is insensitive
to its commandLine argument — any two command lines yield the identical
behaviour, namely constructing one VSTHostService and calling start on it
exactly once. -/
theorem initialise_ignores_commandLine :
    (∀ c₁ c₂ : String, initialise c₁ = initialise c₂) ∧
    (∀ c : String,
      (initialise c).count HostAction.createService = 1 ∧
      (initialise c).count HostAction.startService = 1 ∧
      initialise c = [HostAction.createService, HostAction.startService]) :=
  ⟨fun _ _ => rfl, fun _ => ⟨rfl, rfl, rfl⟩⟩

/-- C8: a malformed line is answered with a ParseError Response on an
unchanged state, the transport loop goes on to process the remaining steps
exactly as it would have, and a well-formed request whose command name is
not recognized is answered with an UnknownCommand error carrying the
request id. -/
theorem protocol_line_errors (env : HostEnv) (s : HostState) (rest : List Step) :
    processLine env s .malformed
      = (s, { id := none, outcome := .err .parseError "malformed JSON" }) ∧
    runSteps env s (.line .malformed :: rest)
      = ((runSteps env s rest).1,
         .resp { id := none, outcome := .err .parseError "malformed JSON" }
           :: (runSteps env s rest).2) ∧
    (∀ rid name, processLine env s (.request rid (.unknown name))
      = (s, { id := some rid, outcome := .err .unknownCommand name })) := by
  refine ⟨rfl, ?_, fun rid name => rfl⟩
  simp [runSteps, processLine]

/-- C1: along any run of the host, the ids carried by the emitted Responses
are exactly the ids of the well-formed requests received, in order — a
bijection between answered requests and Responses, with no Response carrying
an id that was never requested — and exactly one Response is emitted per
transport line. -/
theorem response_ids_bijective (env : HostEnv) (s : HostState)
    (steps : List Step) :
    respIds (runSteps env s steps).2 = reqIds steps ∧
    respCount (runSteps env s steps).2 = lineCount steps := by
  induction steps generalizing s with
  | nil => exact ⟨rfl, rfl⟩
  | cons st rest ih =>
    cases st with
    | line l =>
      cases l with
      | malformed =>
        obtain ⟨ih1, ih2⟩ := ih s
        constructor
        · simpa [runSteps, processLine, respIds, reqIds, Line.reqId] using ih1
        · simpa [runSteps, processLine, respCount, lineCount] using ih2
      | request rid cmd =>
        obtain ⟨ih1, ih2⟩ := ih (processCommand env s cmd).1
        constructor
        · simpa [runSteps, processLine, respIds, reqIds, Line.reqId] using ih1
        · simpa [runSteps, processLine, respCount, lineCount] using ih2
    | fault h =>
      obtain ⟨ih1, ih2⟩ := ih (raiseFault s h).1
      cases hl : lookupH s.instances h with
      | none =>
        constructor
        · simpa [runSteps, raiseFault, hl, respIds, reqIds] using ih1
        · simpa [runSteps, raiseFault, hl, respCount, lineCount] using ih2
      | some i =>
        constructor
        · simpa [runSteps, raiseFault, hl, respIds, reqIds] using ih1
        · simpa [runSteps, raiseFault, hl, respCount, lineCount] using ih2

/-- C6: scanning never mutates any live PluginInstance, the scanPlugins
command reports exactly the scanned descriptors, a descriptor is reported
precisely when some candidate binary in some scanned directory probed
successfully to it — so a binary that fails to probe is omitted, not
reported as an error — and scanning directories that are all empty yields
the empty descriptor list, not an error. -/
theorem scan_omits_failed_probes (env : HostEnv) (s : HostState)
    (paths : List String) :
    (processCommand env s (.scanPlugins paths)).1.instances = s.instances ∧
    (processCommand env s (.scanPlugins paths)).2
      = .ok (.descriptors (scan env paths)) ∧
    (∀ d, d ∈ scan env paths ↔
      ∃ p ∈ paths, ∃ b ∈ env.fs p, b.probe = some d) ∧
    ((∀ p ∈ paths, env.fs p = []) →
      (processCommand env s (.scanPlugins paths)).2 = .ok (.descriptors [])) := by
  refine ⟨rfl, rfl, fun d => ?_, fun hempty => ?_⟩
  · simp [scan, List.mem_flatMap, List.mem_filterMap]
  · have hnil : scan env paths = [] := by
      rw [List.eq_nil_iff_forall_not_mem]
      intro d hd
      simp only [scan, List.mem_flatMap, List.mem_filterMap] at hd
      obtain ⟨p, hp, b, hb, _⟩ := hd
      rw [hempty p hp] at hb
      exact absurd hb (List.not_mem_nil b)
    simp [processCommand, hnil]

/-- C7: renderOffline never changes the host state, a repeated call with the
identical input buffers and frame count returns the identical outcome, and
on an Active instance with a matching buffer layout the outcome is exactly
the deterministic DSP function of the input and the current parameter
state. -/
theorem renderOffline_deterministic (env : HostEnv) (s : HostState) (h : Nat)
    (inp : List (List Int)) (fc : Nat) :
    (processCommand env s (.renderOffline h inp fc)).1 = s ∧
    (processCommand env (processCommand env s (.renderOffline h inp fc)).1
        (.renderOffline h inp fc)).2
      = (processCommand env s (.renderOffline h inp fc)).2 ∧
    (∀ i, lookupH s.instances h = some i → i.state = .active →
      inp.length = i.numIn → (∀ b ∈ inp, b.length = fc) →
      (processCommand env s (.renderOffline h inp fc)).2
        = .ok (.buffers (i.dsp i.params inp fc))) := by
  have hstate : (processCommand env s (.renderOffline h inp fc)).1 = s := by
    cases hl : lookupH s.instances h with
    | none => simp only [processCommand, withInst_none s h _ hl]
    | some i =>
      simp only [processCommand, withInst_some s h _ i hl]
      split <;> first | rfl | (split <;> rfl)
  refine ⟨hstate, by rw [hstate], fun i hl hs hlen hall => ?_⟩
  have hcheck : (inp.length == i.numIn
      && inp.all (fun b => b.length == fc)) = true := by
    rw [Bool.and_eq_true, beq_iff_eq, List.all_eq_true]
    exact ⟨hlen, fun b hb => by rw [beq_iff_eq]; exact hall b hb⟩
  simp [processCommand, withInst, hl, hs, hcheck]

/-- C9: activate on an already Active instance is a re-entrant no-op — it
returns ok and leaves the host state untouched — and in every situation
applying activate twice to a handle equals applying it once (the second
application returns the state reached by the first together with the first
outcome). -/
theorem activate_reentrant_noop (env : HostEnv) (s : HostState) (h : Nat) :
    (∀ i, lookupH s.instances h = some i → i.state = .active →
      processCommand env s (.activate h) = (s, .ok .unit)) ∧
    processCommand env (processCommand env s (.activate h)).1 (.activate h)
      = ((processCommand env s (.activate h)).1,
         (processCommand env s (.activate h)).2) := by
  constructor
  · intro i hl hs
    simp [processCommand, withInst, hl, hs]
  · cases hl : lookupH s.instances h with
    | none => simp [processCommand, withInst, hl]
    | some i =>
      cases hs : i.state with
      | loaded =>
        simp [processCommand, withInst, hl, hs, putInst,
          lookupH_updateEntry_self]
      | suspended =>
        simp [processCommand, withInst, hl, hs, putInst,
          lookupH_updateEntry_self]
      | _ => simp [processCommand, withInst, hl, hs]

/-- C3: once unload has completed on a handle, the handle is retired: after
any further run of the host — any interleaving of transport lines and plugin
faults — every operation that references the handle fails with an
UnknownHandle error. The registry hypothesis states that live handles are
below the next fresh handle, which every reachable state satisfies. -/
theorem unload_retires_handle (env : HostEnv) (s : HostState) (h : Nat)
    (hwf : ∀ k ∈ s.instances.map Prod.fst, k < s.nextHandle)
    (hok : (processCommand env s (.unloadPlugin h)).2 = .ok .unit) :
    ∀ steps cmd, cmd.handleRef = some h →
      (processCommand env
          (runSteps env (processCommand env s (.unloadPlugin h)).1 steps).1
          cmd).2
        = .err .unknownHandle "unknown handle" := by
  intro steps cmd hc
  cases hl : lookupH s.instances h with
  | none =>
    rw [show processCommand env s (.unloadPlugin h)
        = withInst s h (fun _ =>
            ({ s with instances := removeEntry s.instances h }, .ok .unit))
      from rfl, withInst_none _ _ _ hl] at hok
    exact absurd hok (by simp)
  | some i =>
    have hstep : (processCommand env s (.unloadPlugin h)).1
        = { s with instances := removeEntry s.instances h } := by
      rw [show processCommand env s (.unloadPlugin h)
          = withInst s h (fun _ =>
              ({ s with instances := removeEntry s.instances h }, .ok .unit))
        from rfl, withInst_some _ _ _ _ hl]
    have hmem : h ∈ s.instances.map Prod.fst :=
      List.mem_map.mpr ⟨(h, i), lookupH_mem _ _ _ hl, rfl⟩
    have hret : Retired (processCommand env s (.unloadPlugin h)).1 h := by
      rw [hstep]
      exact ⟨lookupH_removeEntry_self _ _, hwf h hmem⟩
    have hret2 := retired_runSteps env _ h steps hret
    exact handleRef_unknown env _ cmd h hc hret2.1

/-- C2: on an instance in the Loaded, Active or Suspended state, setParameter
stores the requested value clamped to the declared range of the parameter
whenever the plugin accepts the clamped value, and a subsequent getParameter
on the same handle and parameter id returns exactly the clamped value
actually applied, not the raw requested value; when the plugin itself
rejects the clamped value, the call fails with an InvalidParameter error and
changes nothing. -/
theorem setParameter_clamps (env : HostEnv) (s : HostState) (h pid : Nat)
    (v : Rat) (i : PluginInstance) (p : Param)
    (hl : lookupH s.instances h = some i)
    (hst : paramStateOk i.state = true)
    (hp : lookupH i.params pid = some p) :
    (p.accepts (clampVal p.lo p.hi v) = true →
      (processCommand env s (.setParameter h pid v)).2 = .ok .unit ∧
      (processCommand env (processCommand env s (.setParameter h pid v)).1
          (.getParameter h pid)).2
        = .ok (.value (clampVal p.lo p.hi v))) ∧
    (p.accepts (clampVal p.lo p.hi v) = false →
      processCommand env s (.setParameter h pid v)
        = (s, .err .invalidParameter "plugin rejected value")) := by
  constructor
  · intro hacc
    have hset : processCommand env s (.setParameter h pid v)
        = (putInst s h
            ({ i with params := updateEntry i.params pid ({ p with value := clampVal p.lo p.hi v }) }),
           .ok .unit) := by
      simp only [processCommand, withInst_some _ _ _ _ hl, hst, hp, hacc,
        if_true]
    refine ⟨by rw [hset], ?_⟩
    rw [hset]
    have hl2 : lookupH (putInst s h
        ({ i with params := updateEntry i.params pid ({ p with value := clampVal p.lo p.hi v }) })).instances h
        = some ({ i with params := updateEntry i.params pid ({ p with value := clampVal p.lo p.hi v }) }) := by
      simp [putInst, lookupH_updateEntry_self, hl]
    have hp2 : lookupH (updateEntry i.params pid
        ({ p with value := clampVal p.lo p.hi v })) pid
        = some ({ p with value := clampVal p.lo p.hi v }) := by
      simp [lookupH_updateEntry_self, hp]
    simp only [processCommand, withInst_some _ _ _ _ hl2]
    simp [hst, hp2]
  · intro hrej
    simp only [processCommand, withInst_some _ _ _ _ hl, hst, hp, hrej,
      if_true]
    simp

/-- C4: a plugin fault raised during a call on instance A transitions only A
to the Error state and emits exactly one crash Event tagged with A; every
other live handle B keeps its stored instance unchanged, and every
subsequent operation referencing B returns the same outcome and leaves B in
the same state as it would have without the fault. The fault is an ordinary
host step yielding a successor state, never a termination of the process. -/
theorem pluginFault_isolated (env : HostEnv) (s : HostState) (a b : Nat)
    (hab : a ≠ b) :
    (∀ i, lookupH s.instances a = some i →
      lookupH (raiseFault s a).1.instances a
          = some ({ i with state := .error }) ∧
      (raiseFault s a).2 = [.event { name := "crash", handle := a }]) ∧
    lookupH (raiseFault s a).1.instances b = lookupH s.instances b ∧
    (∀ cmd, cmd.handleRef = some b →
      (processCommand env (raiseFault s a).1 cmd).2
        = (processCommand env s cmd).2 ∧
      lookupH (processCommand env (raiseFault s a).1 cmd).1.instances b
        = lookupH (processCommand env s cmd).1.instances b) := by
  have hlb : lookupH (raiseFault s a).1.instances b = lookupH s.instances b := by
    cases hl : lookupH s.instances a with
    | none => simp [raiseFault, hl]
    | some i =>
      simp [raiseFault, hl, lookupH_updateEntry_ne _ b a _ (Ne.symm hab)]
  refine ⟨fun i hl => ?_,
    hlb, fun cmd hc => processCommand_frame env _ s b cmd hc hlb⟩
  constructor
  · simp [raiseFault, hl, lookupH_updateEntry_self]
  · simp [raiseFault, hl]

/-- Well-formedness of the registry is preserved by every command. -/
theorem wf_processCommand (env : HostEnv) (s : HostState) (cmd : Command)
    (hwf : WfRegistry s) : WfRegistry (processCommand env s cmd).1 := by
  obtain ⟨hb, hnd, hiss, hnd2, hib⟩ := hwf
  rcases processCommand_shape env s cmd with
    ⟨h1, h2, h3⟩ | ⟨k, i, h1, h2, h3⟩ | ⟨k, h1, h2, h3⟩ | ⟨i, h1, h2, h3⟩
  · exact ⟨by rw [h1, h2]; exact hb, by rw [h1]; exact hnd,
      by rw [h1, h3]; exact hiss, by rw [h3]; exact hnd2,
      by rw [h3, h2]; exact hib⟩
  · exact ⟨by rw [h1, h2, keys_updateEntry]; exact hb,
      by rw [h1, keys_updateEntry]; exact hnd,
      by rw [h1, h3, keys_updateEntry]; exact hiss,
      by rw [h3]; exact hnd2,
      by rw [h3, h2]; exact hib⟩
  · have hsub : List.Sublist ((removeEntry s.instances k).map Prod.fst)
        (s.instances.map Prod.fst) := (removeEntry_sublist _ _).map _
    refine ⟨?_, ?_, ?_, ?_, ?_⟩
    · rw [h1, h2]; exact fun q hq => hb q (hsub.subset hq)
    · rw [h1]; exact hnd.sublist hsub
    · rw [h1, h3]; exact fun q hq => hiss q (hsub.subset hq)
    · rw [h3]; exact hnd2
    · rw [h3, h2]; exact hib
  · have hnmem : s.nextHandle ∉ s.instances.map Prod.fst := fun hm =>
      absurd (hb _ hm) (lt_irrefl _)
    have hnmem2 : s.nextHandle ∉ s.issued := fun hm =>
      absurd (hib _ hm) (lt_irrefl _)
    refine ⟨?_, ?_, ?_, ?_, ?_⟩
    · rw [h1, h2]
      intro q hq
      simp only [List.map_cons, List.mem_cons] at hq
      rcases hq with rfl | hq
      · exact Nat.lt_succ_self _
      · exact Nat.lt_succ_of_lt (hb _ hq)
    · rw [h1]
      simp only [List.map_cons, List.nodup_cons]
      exact ⟨hnmem, hnd⟩
    · rw [h1, h3]
      intro q hq
      simp only [List.map_cons, List.mem_cons] at hq
      rcases hq with rfl | hq
      · exact List.mem_cons_self _ _
      · exact List.mem_cons_of_mem _ (hiss _ hq)
    · rw [h3]
      exact List.nodup_cons.mpr ⟨hnmem2, hnd2⟩
    · rw [h3, h2]
      intro q hq
      rcases List.mem_cons.mp hq with rfl | hq
      · exact Nat.lt_succ_self _
      · exact Nat.lt_succ_of_lt (hib _ hq)

/-- Well-formedness of the registry is preserved by a raised fault. -/
theorem wf_raiseFault (s : HostState) (h : Nat) (hwf : WfRegistry s) :
    WfRegistry (raiseFault s h).1 := by
  obtain ⟨hb, hnd, hiss, hnd2, hib⟩ := hwf
  obtain ⟨h1 | ⟨i, h1⟩, h2, h3⟩ := raiseFault_shape s h
  · exact ⟨by rw [h1, h2]; exact hb, by rw [h1]; exact hnd,
      by rw [h1, h3]; exact hiss, by rw [h3]; exact hnd2,
      by rw [h3, h2]; exact hib⟩
  · exact ⟨by rw [h1, h2, keys_updateEntry]; exact hb,
      by rw [h1, keys_updateEntry]; exact hnd,
      by rw [h1, h3, keys_updateEntry]; exact hiss,
      by rw [h3]; exact hnd2,
      by rw [h3, h2]; exact hib⟩

/-- Well-formedness of the registry is preserved by any run of the host. -/
theorem wf_runSteps (env : HostEnv) (s : HostState) (steps : List Step)
    (hwf : WfRegistry s) : WfRegistry (runSteps env s steps).1 := by
  induction steps generalizing s with
  | nil => exact hwf
  | cons st rest ih =>
    cases st with
    | line l =>
      cases l with
      | malformed => exact ih s hwf
      | request rid cmd => exact ih _ (wf_processCommand env s cmd hwf)
    | fault k => exact ih _ (wf_raiseFault s k hwf)

/-- C5: starting from a well-formed registry, every run of the host
preserves well-formedness — live handles are pairwise distinct (each handle
maps to exactly one live instance), every live handle was issued, and issued
handles are pairwise distinct and below the next fresh handle, so a handle
is never issued twice in the process lifetime — and a successful load issues
exactly the next fresh handle, a handle never issued before, records it as
issued, and maps it to a live instance. -/
theorem registry_handles_unique (env : HostEnv) (s : HostState)
    (hwf : WfRegistry s) :
    (∀ steps, WfRegistry (runSteps env s steps).1) ∧
    (∀ descId cfg h,
      (processCommand env s (.loadPlugin descId cfg)).2 = .ok (.handle h) →
      h = s.nextHandle ∧
      h ∉ s.issued ∧
      (processCommand env s (.loadPlugin descId cfg)).1.issued = h :: s.issued ∧
      (lookupH (processCommand env s (.loadPlugin descId cfg)).1.instances
          h).isSome = true) := by
  obtain ⟨hbnd, hnd, hiss, hnd2, hib⟩ := hwf
  constructor
  · exact fun steps =>
      wf_runSteps env s steps ⟨hbnd, hnd, hiss, hnd2, hib⟩
  · intro descId cfg h hok
    cases hfind : s.catalog.find? (fun d => d.uid == descId) with
    | none => simp [processCommand, hfind] at hok
    | some d =>
      cases hplug : env.plugins d.uid with
      | none => simp [processCommand, hfind, hplug] at hok
      | some pd =>
        cases hcfg : pd.acceptsConfig cfg with
        | false => simp [processCommand, hfind, hplug, hcfg] at hok
        | true =>
          have hh : h = s.nextHandle := by
            simp [processCommand, hfind, hplug, hcfg] at hok
            omega
          subst hh
          refine ⟨rfl, fun hm => absurd (hib _ hm) (lt_irrefl _), ?_, ?_⟩
          · simp [processCommand, hfind, hplug, hcfg]
          · simp [processCommand, hfind, hplug, hcfg, lookupH]

/-! Concrete evaluations of the claim theorems. -/

/-- Evaluation of the clamping theorem at a concrete input: requesting the
value 2 on a parameter with declared range 0 to 1 stores 1, and getParameter
then returns 1. -/
theorem setParameter_clamps_witness :
    (processCommand cEnv cState (.setParameter 0 0 2)).2 = .ok .unit ∧
    (processCommand cEnv (processCommand cEnv cState (.setParameter 0 0 2)).1
        (.getParameter 0 0)).2 = .ok (.value 1) := by
  have h := (setParameter_clamps cEnv cState 0 0 2 cInstActive cParam rfl rfl
    rfl).1 rfl
  have hc : clampVal cParam.lo cParam.hi 2 = 1 := by decide
  exact ⟨h.1, by rw [h.2, hc]⟩

/-- Evaluation of the unload-retires theorem at a concrete input: after
unloading handle 0 and then loading another plugin, activate 0 fails with an
UnknownHandle error. -/
theorem unload_retires_handle_witness :
    (∀ k ∈ cState.instances.map Prod.fst, k < cState.nextHandle) ∧
    (processCommand cEnv cState (.unloadPlugin 0)).2 = .ok .unit ∧
    (processCommand cEnv
        (runSteps cEnv (processCommand cEnv cState (.unloadPlugin 0)).1
          [Step.line (Line.request 9 (Command.loadPlugin 7 cCfg))]).1
        (.activate 0)).2 = .err .unknownHandle "unknown handle" := by
  refine ⟨by decide, rfl, ?_⟩
  exact unload_retires_handle cEnv cState 0 (by decide) rfl
    [Step.line (Line.request 9 (Command.loadPlugin 7 cCfg))] (.activate 0) rfl

/-- Evaluation of the fault-isolation theorem at a concrete input: a fault
on handle 0 moves it to the Error state, emits one crash Event, and leaves
handle 1 and its subsequent activation unaffected. -/
theorem pluginFault_isolated_witness :
    lookupH (raiseFault cState 0).1.instances 0
        = some ({ cInstActive with state := .error }) ∧
    (raiseFault cState 0).2 = [.event { name := "crash", handle := 0 }] ∧
    lookupH (raiseFault cState 0).1.instances 1 = lookupH cState.instances 1 ∧
    (processCommand cEnv (raiseFault cState 0).1 (.activate 1)).2
      = (processCommand cEnv cState (.activate 1)).2 := by
  have h := pluginFault_isolated cEnv cState 0 1 (by decide)
  exact ⟨(h.1 cInstActive rfl).1, (h.1 cInstActive rfl).2, h.2.1,
    (h.2.2 (.activate 1) rfl).1⟩

/-- Evaluation of the registry-uniqueness theorem at a concrete input: the
concrete state is well-formed, stays well-formed after a load, and the load
issues the fresh handle 2, which was never issued before. -/
theorem registry_handles_unique_witness :
    WfRegistry (runSteps cEnv cState
        [Step.line (Line.request 3 (Command.loadPlugin 7 cCfg))]).1 ∧
    2 ∉ cState.issued ∧
    (processCommand cEnv cState (.loadPlugin 7 cCfg)).1.issued
      = 2 :: cState.issued := by
  have h := registry_handles_unique cEnv cState
    ⟨by decide, by decide, by decide, by decide, by decide⟩
  have h2 := h.2 7 cCfg 2 rfl
  exact ⟨h.1 _, h2.2.1, h2.2.2.1⟩

/-- Evaluation of the scan theorem at a concrete input: scanning a directory
with no candidate binaries yields the empty descriptor list, not an
error. -/
theorem scan_omits_failed_probes_witness :
    (processCommand cEnv cState (.scanPlugins ["/plugins"])).2
      = .ok (.descriptors []) :=
  (scan_omits_failed_probes cEnv cState ["/plugins"]).2.2.2 (fun p _ => rfl)

/-- Evaluation of the offline-render theorem at a concrete input: rendering
two channels of two frames through the identity test plugin returns the
input buffers unchanged. -/
theorem renderOffline_deterministic_witness :
    (processCommand cEnv cState (.renderOffline 0 [[1, 2], [3, 4]] 2)).2
      = .ok (.buffers [[1, 2], [3, 4]]) := by
  have h := (renderOffline_deterministic cEnv cState 0 [[1, 2], [3, 4]] 2).2.2
    cInstActive rfl rfl rfl (by decide)
  exact h

/-- Evaluation of the activate theorem at a concrete input: activate on the
already Active handle 0 returns ok and leaves the state untouched. -/
theorem activate_reentrant_noop_witness :
    processCommand cEnv cState (.activate 0) = (cState, .ok .unit) :=
  (activate_reentrant_noop cEnv cState 0).1 cInstActive rfl rfl

end VSTHost

